import Mathlib

/-
Verification of the PromptCraft batch processing engine
(src/batch_processor.py, collaborators in src/prompt_craft.py).

The engine's pure per-item logic is embedded as Lean functions; the
dispatcher / registry concurrency is embedded as a small-step transition
system whose constructors correspond line-by-line to the Python statements
that mutate shared state.  Machine floats (processing_time_ms) and wall
clock timestamps are not needed by any property below and are omitted from
the records; the retention-based cleanup, which is purely time-based, is
modelled separately over (job_id, completed_at) pairs.  String operations
from the Python standard library (substring test, replace, split) are
embedded as structural recursions over character lists so that concrete
instances evaluate inside the kernel.
-/

namespace PromptKraft

/-- Embeds BatchItem (src/batch_processor.py lines 30-37).  The `metadata`
field is never read by the engine and is omitted. -/
structure BatchItem where
  id : String
  prompt : String
  model : String := "default"
  template : Option String := none
deriving Repr, DecidableEq

/-- Embeds BatchResult (src/batch_processor.py lines 39-48).  The float
`processing_time_ms` and the wall-clock `timestamp` are omitted: no claim
depends on their values.  `none` models the Python `None` default. -/
structure BatchResult where
  id : String
  success : Bool
  enhanced_prompt : Option String := none
  template_used : Option String := none
  error_message : Option String := none
deriving Repr, DecidableEq

/-- Outcome of calling the validator collaborator: either the validated
string or the message `str(e)` of the exception it raised. -/
abbrev Validator := String → Except String String

/-- Outcome of calling the enhancement collaborator with the processor's
config baked in: either `(enhanced_text, template_name)` or the message of
the exception it raised.  `enhance_prompt(self.config, validated, model)`
in the source. -/
abbrev Enhancer := String → String → Except String (String × String)

/-- Embeds the per-item processing body shared verbatim by
`BatchProcessor._process_single_item_async` (src/batch_processor.py lines
195-233) and the inner `process_item` of `_process_batch_sync` (lines
240-269): validate, then enhance, and convert any exception from either
call into a failed BatchResult carrying the exception's message.  The two
Python functions differ only in how the enhancement call is scheduled
(event-loop executor vs. direct call), not in the result they build. -/
def process_single_item (validate : Validator) (enhance : Enhancer)
    (item : BatchItem) : BatchResult :=
  match validate item.prompt with
  | Except.error e =>
      { id := item.id, success := false, error_message := some e }
  | Except.ok v =>
      match enhance v item.model with
      | Except.error e =>
          { id := item.id, success := false, error_message := some e }
      | Except.ok (enhanced, tmpl) =>
          { id := item.id, success := true, enhanced_prompt := some enhanced,
            template_used := some tmpl }

/-- The composite outcome of the validation-then-enhancement pipeline for
one item, before exception-to-result conversion. -/
def item_pipeline (validate : Validator) (enhance : Enhancer)
    (item : BatchItem) : Except String (String × String) :=
  match validate item.prompt with
  | Except.error e => Except.error e
  | Except.ok v => enhance v item.model

/-- Modelled from the spec: `validate_input` is imported by
src/batch_processor.py line 20 from prompt_craft, but no definition of it
(nor of the error classes next to it) exists anywhere under src/.  Spec
section 6 describes the Validator collaborator: `validate(prompt) ->
string`, failing with a validation error on empty/oversized/malformed
input.  No size threshold or malformedness criterion is given, so only the
empty-input failure is modelled; the message text is a modelling choice. -/
def validate_input (prompt : String) : Except String String :=
  if prompt = "" then Except.error "validation error: empty prompt"
  else Except.ok prompt

/-- Python substring test `pat in s` over character lists: the pattern is
a prefix of some suffix.  An empty pattern is contained in everything,
matching Python. -/
def chars_is_infix (pat : List Char) : List Char → Bool
  | [] => pat.isEmpty
  | c :: rest => pat.isPrefixOf (c :: rest) || chars_is_infix pat rest

/-- Python substring test `pat in s` on strings. -/
def str_contains (s pat : String) : Bool :=
  chars_is_infix pat.data s.data

/-- Python `str.lower()` restricted to its ASCII behavior, which is all
the source exercises (`user_input.lower()` feeding ASCII keyword tests). -/
def str_lower (s : String) : String :=
  ⟨s.data.map Char.toLower⟩

/-- Replaces every non-overlapping occurrence of `pat` left to right, like
Python `str.replace`; the fuel argument (initially the text length) makes
the recursion structural.  Fuel never runs out on a real call because each
step consumes at least one character. -/
def chars_replace_fuel (pat rep : List Char) : Nat → List Char → List Char
  | _, [] => []
  | 0, s => s
  | n + 1, c :: rest =>
      if pat.isPrefixOf (c :: rest) then
        rep ++ chars_replace_fuel pat rep n (List.drop (pat.length - 1) rest)
      else c :: chars_replace_fuel pat rep n rest

/-- Python `s.replace(pat, rep)` for a non-empty pattern; the source only
calls it on the two fixed non-empty placeholder patterns, so the
empty-pattern case (where Python interleaves `rep` everywhere) is mapped
to the identity and is dead at every call site of this development. -/
def str_replace (s pat rep : String) : String :=
  if pat.data.isEmpty then s
  else ⟨chars_replace_fuel pat.data rep.data s.data.length s.data⟩

/-- Python `len(s.split())`: the number of maximal whitespace-free runs
(src/prompt_craft.py line 166). -/
def word_count_go (inWord : Bool) : List Char → Nat
  | [] => 0
  | c :: rest =>
      if c.isWhitespace then word_count_go false rest
      else (if inWord then 0 else 1) + word_count_go true rest

/-- See `word_count_go`. -/
def word_count (s : String) : Nat :=
  word_count_go false s.data

/-- A template entry of the configuration: `config["templates"][key]` with
its `name` and `content` fields (src/prompt_craft.py lines 39-66). -/
structure TemplateSpec where
  name : String
  content : String
deriving Repr, DecidableEq

/-- The slice of the configuration dict read by the basic enhancement path
(src/prompt_craft.py lines 132-183), as association lists keyed like the
Python dicts.  A malformed config whose dict accesses raise is subsumed by
the generic `Enhancer` error case in the theorems that quantify over
collaborators. -/
structure Config where
  templates : List (String × TemplateSpec)
  model_instructions : List (String × String)
  keywords : List (String × List String)
deriving Repr, DecidableEq

/-- First-match association-list lookup, the value of `d[k]` / `d.get(k)`
for a Python dict rendered as a key-value list. -/
def alist_find {α : Type} (m : List (String × α)) (k : String) : Option α :=
  match m with
  | [] => none
  | (k', v) :: rest => if k' = k then some v else alist_find rest k

/-- Python `max(iterable, key=get)` over an insertion-ordered score dict:
returns the first key attaining the maximal score (Python `max` keeps the
current maximum and replaces it only on strictly greater values). -/
def argmax_first_go (bk : String) (bv : Nat) :
    List (String × Nat) → String
  | [] => bk
  | (k, v) :: rest =>
      if bv < v then argmax_first_go k v rest else argmax_first_go bk bv rest

/-- See `argmax_first_go`; `none` on an empty dict. -/
def argmax_first : List (String × Nat) → Option String
  | [] => none
  | (k, v) :: rest => some (argmax_first_go k v rest)

/-- Embeds `_get_enhanced_model_instructions` (src/prompt_craft.py lines
161-183): base instructions for the model (falling back to the "default"
key, whose absence raises KeyError), plus complexity- and domain-based
additions. -/
def get_enhanced_model_instructions (config : Config) (model : String)
    (user_input : String) : Except String String :=
  let base? : Except String String :=
    match alist_find config.model_instructions model with
    | some v => Except.ok v
    | none =>
      match alist_find config.model_instructions "default" with
      | some v => Except.ok v
      | none => Except.error "KeyError: 'default'"
  match base? with
  | Except.error e => Except.error e
  | Except.ok base =>
    let wc := word_count user_input
    let add1 : String :=
      if 50 < wc then
        "\n- Handle this complex, multi-faceted request with comprehensive detail"
      else if 20 < wc then
        "\n- Provide thorough coverage of this moderate complexity request"
      else ""
    let lower := str_lower user_input
    let add2 : String :=
      if ["code", "algorithm", "software", "programming"].any
          (fun w => str_contains lower w) then
        "\n- Apply software engineering best practices and technical precision"
      else if ["story", "creative", "write", "design"].any
          (fun w => str_contains lower w) then
        "\n- Emphasize creativity, originality, and artistic excellence"
      else if ["analyze", "compare", "evaluate"].any
          (fun w => str_contains lower w) then
        "\n- Use systematic analytical frameworks and evidence-based reasoning"
      else ""
    Except.ok (base ++ add1 ++ add2)

/-- Keyword score of one template key: how many of its keywords occur as
substrings of the lowercased input (src/prompt_craft.py lines 137-141). -/
def keyword_score (lower_input : String) (kws : List String) : Nat :=
  (kws.filter (fun kw => str_contains lower_input kw)).length

/-- The score dict built at src/prompt_craft.py lines 137-141: only keys
with a strictly positive score are recorded, in config iteration order. -/
def template_scores (config : Config) (lower_input : String) :
    List (String × Nat) :=
  config.keywords.filterMap (fun p =>
    let sc := keyword_score lower_input p.2
    if 0 < sc then some (p.1, sc) else none)

/-- Embeds `_enhanced_basic_prompt` (src/prompt_craft.py lines 132-159):
pick the best-scoring template key (falling back to "general"), look up
its content and name (KeyError if absent), build the model instructions,
and substitute both placeholders, replacing every occurrence like Python
`str.replace`.  `enhance_prompt` (lines 97-130) is exactly this function
whenever the advanced-engine branch is disabled (config lacking
`advanced_features.intelligent_analysis`, or engine import failure); the
advanced branch is not modelled, and the theorems that need full
generality quantify over an arbitrary `Enhancer` instead. -/
def enhanced_basic_prompt (config : Config) (user_input model : String) :
    Except String (String × String) :=
  let lower := str_lower user_input
  let scores := template_scores config lower
  let template_key :=
    match argmax_first scores with
    | some k => k
    | none => "general"
  match alist_find config.templates template_key with
  | none => Except.error ("KeyError: " ++ template_key)
  | some tspec =>
    match get_enhanced_model_instructions config model user_input with
    | Except.error e => Except.error e
    | Except.ok minst =>
      let enhanced :=
        str_replace (str_replace tspec.content "{user_input}" user_input)
          "{model_instructions}" minst
      Except.ok (enhanced, tspec.name)

/-- A degenerate but well-formed configuration: one "general" template
whose content is the empty string, an empty "default" model instruction,
and no keywords.  The engine accepts any configuration object (spec
section 6 calls it opaque), so this is a legal input. -/
def config0 : Config :=
  { templates := [("general", { name := "g", content := "" })],
    model_instructions := [("default", "")],
    keywords := [] }

/-- A batch item with a perfectly ordinary prompt, fed to `config0`. -/
def item0 : BatchItem :=
  { id := "item_0", prompt := "hello", model := "default" }

/-- Embeds the item construction of `BatchProcessor.process_batch`
(src/batch_processor.py lines 158-167): one BatchItem per prompt, ids
`item_0`, `item_1`, ... in enumeration order. -/
def make_batch_items (prompts : List String) (model : String)
    (template : Option String) : List BatchItem :=
  prompts.enum.map (fun p =>
    { id := "item_" ++ toString p.1, prompt := p.2, model := model,
      template := template })

/-- Embeds the direct path `BatchProcessor.process_batch`
(src/batch_processor.py lines 154-193): every item is processed by the
item processor and `asyncio.gather` returns results in task order, which
is item order.  The semaphore (line 170) bounds how many items are in
flight but does not affect the values or their order, and the
exception-conversion loop (lines 181-191) is dead because
`_process_single_item_async` never raises (see
`item_processor_never_propagates`). -/
def process_batch (validate : Validator) (enhance : Enhancer)
    (prompts : List String) (model : String) (template : Option String) :
    List BatchResult :=
  (make_batch_items prompts model template).map
    (process_single_item validate enhance)

/-- Embeds the queued path `BatchProcessor._process_batch_sync`
(src/batch_processor.py lines 235-288): one future per item is submitted
to a pool and results are appended in the order
`concurrent.futures.as_completed` yields them — the completion order,
here an explicit parameter `order` supplied by the adversarial scheduler.
`as_completed` yields every submitted future exactly once, so a real
execution is one with `order` a permutation of all item indices; the
outer `future.result()` try/except (lines 276-286) is dead because the
inner `process_item` never raises. -/
def process_batch_sync (validate : Validator) (enhance : Enhancer)
    (items : List BatchItem) (order : List (Fin items.length)) :
    List BatchResult :=
  order.map (fun i => process_single_item validate enhance (items.get i))

/-- A two-item batch whose ids record their submission order. -/
def items2 : List BatchItem :=
  [{ id := "a", prompt := "pa" }, { id := "b", prompt := "pb" }]

/-- Embeds BatchJob (src/batch_processor.py lines 50-60) restricted to the
fields the engine reads: `created_at`, `user_id` and `priority` are only
echoed into status payloads and never branch on; `max_retries` and
`timeout_seconds` are declared but never read anywhere (spec section 9
calls them dead contract fields). -/
structure BatchJob where
  job_id : String
  items : List BatchItem
  callback_url : Option String := none
deriving Repr, DecidableEq

/-- Embeds the completed record built by `job_wrapper`
(src/batch_processor.py lines 126-133): the full result list plus
aggregate counts.  The wall-clock `completed_at` field is only read by the
time-based cleanup, which is modelled separately. -/
structure CompletedRecord where
  job_id : String
  results : List BatchResult
  total_items : Nat
  successful : Nat
  failed : Nat
deriving Repr, DecidableEq

/-- See `CompletedRecord`: the construction at lines 126-133. -/
def completed_record (job : BatchJob) (results : List BatchResult) :
    CompletedRecord :=
  { job_id := job.job_id,
    results := results,
    total_items := job.items.length,
    successful := (results.filter (fun r => r.success)).length,
    failed := (results.filter (fun r => !r.success)).length }

/-- Progress of one `job_wrapper` closure (src/batch_processor.py lines
120-149) through its atomic shared-state mutations.  `submitted`: the
dispatcher ran `executor.submit(job_wrapper)` (line 152) but the wrapper
body has not started; `activeInserted`: line 122 ran (job placed in the
active map) and `_process_batch_sync` is running; `storedOk rec`: line 126
ran (completed record placed in the completed map), callback not yet
attempted; `notified rec`: line 137 ran (callback delivered to the
notifier); `storedFail`: the except path line 141 ran (job-level failure
record placed in the completed map).  A wrapper leaves this list when its
`finally` block (line 149) removes the job from the active map. -/
inductive WrapperPhase
  | submitted
  | activeInserted
  | storedOk (rec : CompletedRecord)
  | notified (rec : CompletedRecord)
  | storedFail
deriving Repr, DecidableEq

/-- A value of the completed-jobs dict: either the full completed record
(lines 126-133) or the job-level failure record (lines 141-146), which
keeps only the error message and drops all per-item results. -/
inductive CompletedEntry
  | completed (rec : CompletedRecord)
  | jobFailure (error : String)
deriving Repr, DecidableEq

/-- Association list kept key-unique like a Python dict: removal of a key
(`dict.pop(k, None)`). -/
def alist_erase {α : Type} : List (String × α) → String → List (String × α)
  | [], _ => []
  | (k', v) :: rest, k =>
      if k' = k then alist_erase rest k else (k', v) :: alist_erase rest k

/-- Python `d[k] = v`: the binding for `k` becomes `v`.  Iteration order
of the dict is not preserved by this rendering; no claim reads it. -/
def alist_insert {α : Type} (m : List (String × α)) (k : String) (v : α) :
    List (String × α) :=
  (k, v) :: alist_erase m k

/-- The shared mutable state of one BatchProcessor
(src/batch_processor.py lines 72-75) together with the in-flight wrapper
closures and two ghost histories: `callbacks_sent` logs every
`_send_callback` invocation (line 137) and `cancelled` logs every job id
for which `cancel_job` returned True (line 346).  Ghost fields are
append-only observations, not code state. -/
structure EngineState where
  job_queue : List BatchJob
  inflight : List (BatchJob × WrapperPhase)
  active_jobs : List (String × BatchJob)
  completed_jobs : List (String × CompletedEntry)
  callbacks_sent : List (String × CompletedRecord)
  cancelled : List String
deriving Repr, DecidableEq

/-- The status string of `get_job_status` (src/batch_processor.py lines
310-336): the completed map is consulted first (line 313), then the
active map (line 321), and everything else — queued jobs and unknown ids
alike — gets the catch-all `queued` placeholder (line 333).  The code has
no not-found status. -/
inductive JobStatusKind
  | completed
  | processing
  | queued
deriving Repr, DecidableEq

/-- See `JobStatusKind`; the payload fields of the returned dict are
copies of the record and irrelevant to every claim. -/
def get_job_status (s : EngineState) (jid : String) : JobStatusKind :=
  if (alist_find s.completed_jobs jid).isSome then JobStatusKind.completed
  else if (alist_find s.active_jobs jid).isSome then JobStatusKind.processing
  else JobStatusKind.queued

/-- Embeds `cancel_job` (src/batch_processor.py lines 338-348): pops the
job from the active map and returns True iff the id is there; otherwise
returns False leaving everything untouched.  A successful cancellation is
also recorded in the ghost `cancelled` log. -/
def cancel_job (s : EngineState) (jid : String) : Bool × EngineState :=
  if (alist_find s.active_jobs jid).isSome then
    (true, { s with active_jobs := alist_erase s.active_jobs jid,
                    cancelled := jid :: s.cancelled })
  else (false, s)

/-- One atomic interleaving step of the engine, parametrized by the
collaborators and `max_concurrent_batches`.
`dispatch`: the dispatcher loop body (src/batch_processor.py lines
105-107) — guarded by a non-empty queue and `len(active_jobs) <
max_concurrent_batches`, it dequeues one job and submits its wrapper; the
wrapper has not run yet, so the active map is untouched here.
`wrapper_start`: line 122, the wrapper's first statement.
`store_ok`: lines 123-133, the batch result computed under any completion
order and the completed record inserted.
`store_fail`: lines 139-146, the except path inserting a job-level
failure record (the error message is arbitrary).
`send_callback`: lines 136-137, enabled only after a successful store
when a callback url is set (`_send_callback` itself never raises, lines
350-364).
`finish_ok` / `finish_notified` / `finish_fail`: the `finally` block line
149 popping the job from the active map and retiring the wrapper; on the
ok path the callback runs first when a url is set.
`cancel`: an external `cancel_job` call at any time.
The periodic `_cleanup_old_jobs` call is purely time-based and modelled
separately (`cleanup_old_jobs`); it touches only completed entries older
than the retention window, far beyond any wrapper lifetime. -/
inductive Step (V : Validator) (E : Enhancer) (maxConc : Nat) :
    EngineState → EngineState → Prop
  | dispatch (s : EngineState) (job : BatchJob) (rest : List BatchJob) :
      s.job_queue = job :: rest →
      s.active_jobs.length < maxConc →
      Step V E maxConc s
        { s with job_queue := rest,
                 inflight := s.inflight ++ [(job, WrapperPhase.submitted)] }
  | wrapper_start (s : EngineState) (job : BatchJob)
      (l1 l2 : List (BatchJob × WrapperPhase)) :
      s.inflight = l1 ++ (job, WrapperPhase.submitted) :: l2 →
      Step V E maxConc s
        { s with inflight := l1 ++ (job, WrapperPhase.activeInserted) :: l2,
                 active_jobs := alist_insert s.active_jobs job.job_id job }
  | store_ok (s : EngineState) (job : BatchJob)
      (l1 l2 : List (BatchJob × WrapperPhase))
      (order : List (Fin job.items.length)) :
      s.inflight = l1 ++ (job, WrapperPhase.activeInserted) :: l2 →
      order.Perm (List.finRange job.items.length) →
      Step V E maxConc s
        { s with
          inflight := l1 ++ (job, WrapperPhase.storedOk
            (completed_record job (process_batch_sync V E job.items order))) :: l2,
          completed_jobs := alist_insert s.completed_jobs job.job_id
            (CompletedEntry.completed
              (completed_record job (process_batch_sync V E job.items order))) }
  | store_fail (s : EngineState) (job : BatchJob)
      (l1 l2 : List (BatchJob × WrapperPhase)) (err : String) :
      s.inflight = l1 ++ (job, WrapperPhase.activeInserted) :: l2 →
      Step V E maxConc s
        { s with inflight := l1 ++ (job, WrapperPhase.storedFail) :: l2,
                 completed_jobs := alist_insert s.completed_jobs job.job_id
                   (CompletedEntry.jobFailure err) }
  | send_callback (s : EngineState) (job : BatchJob)
      (l1 l2 : List (BatchJob × WrapperPhase)) (rec : CompletedRecord)
      (url : String) :
      s.inflight = l1 ++ (job, WrapperPhase.storedOk rec) :: l2 →
      job.callback_url = some url →
      Step V E maxConc s
        { s with inflight := l1 ++ (job, WrapperPhase.notified rec) :: l2,
                 callbacks_sent := s.callbacks_sent ++ [(url, rec)] }
  | finish_ok (s : EngineState) (job : BatchJob)
      (l1 l2 : List (BatchJob × WrapperPhase)) (rec : CompletedRecord) :
      s.inflight = l1 ++ (job, WrapperPhase.storedOk rec) :: l2 →
      job.callback_url = none →
      Step V E maxConc s
        { s with inflight := l1 ++ l2,
                 active_jobs := alist_erase s.active_jobs job.job_id }
  | finish_notified (s : EngineState) (job : BatchJob)
      (l1 l2 : List (BatchJob × WrapperPhase)) (rec : CompletedRecord) :
      s.inflight = l1 ++ (job, WrapperPhase.notified rec) :: l2 →
      Step V E maxConc s
        { s with inflight := l1 ++ l2,
                 active_jobs := alist_erase s.active_jobs job.job_id }
  | finish_fail (s : EngineState) (job : BatchJob)
      (l1 l2 : List (BatchJob × WrapperPhase)) :
      s.inflight = l1 ++ (job, WrapperPhase.storedFail) :: l2 →
      Step V E maxConc s
        { s with inflight := l1 ++ l2,
                 active_jobs := alist_erase s.active_jobs job.job_id }
  | cancel (s : EngineState) (jid : String) :
      Step V E maxConc s (cancel_job s jid).2

/-- A pair of empty-batch jobs with distinct ids, as `submit_job` would
enqueue them. -/
def jobA : BatchJob := { job_id := "j1", items := [] }

/-- See `jobA`. -/
def jobB : BatchJob := { job_id := "j2", items := [] }

/-- Initial state: two jobs submitted and queued, nothing dispatched. -/
def c3_s0 : EngineState :=
  { job_queue := [jobA, jobB], inflight := [], active_jobs := [],
    completed_jobs := [], callbacks_sent := [], cancelled := [] }

/-- After the dispatcher dequeued `jobA` and submitted its wrapper, which
has not started yet. -/
def c3_s1 : EngineState :=
  { job_queue := [jobB], inflight := [(jobA, WrapperPhase.submitted)],
    active_jobs := [], completed_jobs := [], callbacks_sent := [],
    cancelled := [] }

/-- After the dispatcher dequeued `jobB` as well: the active map is still
empty, so the `len(active_jobs) < max_concurrent_batches` guard passed
again even with `max_concurrent_batches = 1`. -/
def c3_s2 : EngineState :=
  { job_queue := [],
    inflight := [(jobA, WrapperPhase.submitted), (jobB, WrapperPhase.submitted)],
    active_jobs := [], completed_jobs := [], callbacks_sent := [],
    cancelled := [] }

/-- `jobA`'s wrapper started: one job in the active map. -/
def c3_s3 : EngineState :=
  { job_queue := [],
    inflight := [(jobA, WrapperPhase.activeInserted), (jobB, WrapperPhase.submitted)],
    active_jobs := [("j1", jobA)], completed_jobs := [],
    callbacks_sent := [], cancelled := [] }

/-- `jobB`'s wrapper started too: two jobs in the active map although
`max_concurrent_batches = 1`. -/
def c3_final : EngineState :=
  { job_queue := [],
    inflight := [(jobA, WrapperPhase.activeInserted), (jobB, WrapperPhase.activeInserted)],
    active_jobs := [("j2", jobB), ("j1", jobA)], completed_jobs := [],
    callbacks_sent := [], cancelled := [] }

/-- Job ids of the queued jobs, in order. -/
def queue_ids (l : List BatchJob) : List String :=
  l.map (fun j => j.job_id)

/-- Job ids of the in-flight wrappers, in order. -/
def inflight_ids (l : List (BatchJob × WrapperPhase)) : List String :=
  l.map (fun p => p.1.job_id)

/-- Wrapper phases that have already inserted a record into the completed
map. -/
def phase_stored : WrapperPhase → Bool
  | WrapperPhase.storedOk _ => true
  | WrapperPhase.notified _ => true
  | WrapperPhase.storedFail => true
  | _ => false

/-- Inductive invariant of the engine: every job id is dispatched at most
once (queue and in-flight ids are mutually distinct), a running wrapper
that has not been cancelled has its job in the active map, and a wrapper
that has stored its record has its job in the completed map. -/
structure WF (s : EngineState) : Prop where
  ids_nodup : (queue_ids s.job_queue ++ inflight_ids s.inflight).Nodup
  active_of_running : ∀ job : BatchJob,
    (job, WrapperPhase.activeInserted) ∈ s.inflight →
    job.job_id ∉ s.cancelled →
    alist_find s.active_jobs job.job_id = some job
  completed_of_stored : ∀ (job : BatchJob) (ph : WrapperPhase),
    (job, ph) ∈ s.inflight → phase_stored ph = true →
    (alist_find s.completed_jobs job.job_id).isSome

/-- A state in which `jobA`'s wrapper is mid-run: the job sits in the
active map while its batch executes. -/
def s_run : EngineState :=
  { job_queue := [], inflight := [(jobA, WrapperPhase.activeInserted)],
    active_jobs := [("j1", jobA)], completed_jobs := [],
    callbacks_sent := [], cancelled := [] }

/-- Embeds `_cleanup_old_jobs` (src/batch_processor.py lines 366-381)
over (job_id, completed_at) pairs with integer timestamps in seconds; the
record payloads are irrelevant to eviction, and every completed record
carries `completed_at` (the normal path line 129 and the failure path
line 144 both set it), so the `'completed_at' in job_data` guard is
always true.  The name `timedelta` used at line 368 is bound only by the
statement importing it inside the `if __name__ == "__main__"` block (line
588): when the
module is imported rather than run as a script, the call raises a
NameError, which `_background_processor` catches at line 114 — so in that
context the completed map is never pruned. -/
def cleanup_old_jobs (timedelta_in_scope : Bool) (now : Int)
    (max_age_hours : Int) (completed : List (String × Int)) :
    Except String (List (String × Int)) :=
  if timedelta_in_scope then
    Except.ok (completed.filter (fun p => ¬ (p.2 < now - max_age_hours * 3600)))
  else Except.error "NameError: name 'timedelta' is not defined"

/-- Python `x or y` on an optional integer: `None` and `0` are falsy. -/
def py_or_nat (x : Option Nat) (y : Nat) : Nat :=
  match x with
  | none => y
  | some n => if n = 0 then y else n

/-- Embeds the worker-count default of `BatchProcessor.__init__`
(src/batch_processor.py line 69): `min(32, (os.cpu_count() or 1) + 4)`.
The name `os` is bound only by the import inside the
`if __name__ == "__main__"` block (line 587), so evaluating the default
raises a NameError whenever the module is imported rather than run as a
script — which is exactly how the repository's own test constructs
`BatchProcessor(config)` (src/test_new_features.py line 369). -/
def default_max_workers (os_in_scope : Bool) (cpu_count : Option Nat) :
    Except String Nat :=
  if os_in_scope then Except.ok (min 32 (py_or_nat cpu_count 1 + 4))
  else Except.error "NameError: name 'os' is not defined"

/-- Embeds `max_workers or min(32, (os.cpu_count() or 1) + 4)`
(src/batch_processor.py line 69): a truthy explicit argument wins;
`None` (and the falsy 0) fall back to the hardware-derived default. -/
def init_max_workers (os_in_scope : Bool) (cpu_count : Option Nat)
    (max_workers : Option Nat) : Except String Nat :=
  match max_workers with
  | some w =>
      if w = 0 then default_max_workers os_in_scope cpu_count
      else Except.ok w
  | none => default_max_workers os_in_scope cpu_count

/-- The item processor is a total function of the pipeline outcome: any
pipeline exception becomes a failed result carrying the exception's
message, and a pipeline success becomes a successful result carrying the
enhanced text and template name. -/
theorem process_single_item_spec (validate : Validator) (enhance : Enhancer)
    (item : BatchItem) :
    process_single_item validate enhance item =
      match item_pipeline validate enhance item with
      | Except.error m =>
          { id := item.id, success := false, error_message := some m }
      | Except.ok (s, t) =>
          { id := item.id, success := true, enhanced_prompt := some s,
            template_used := some t } := by
  unfold process_single_item item_pipeline
  cases validate item.prompt with
  | error e => rfl
  | ok v =>
    cases enhance v item.model with
    | error e => rfl
    | ok p => cases p with | mk s t => rfl

/-- The item processor never changes the item's id. -/
theorem process_single_item_id (validate : Validator) (enhance : Enhancer)
    (item : BatchItem) :
    (process_single_item validate enhance item).id = item.id := by
  rw [process_single_item_spec]
  cases item_pipeline validate enhance item with
  | error e => rfl
  | ok p => cases p with | mk s t => rfl

/-- C1: for every behavior of the validator and enhancer collaborators and
every item, the Item Processor (both the async path and the queued sync
path, which share this body) returns a BatchResult and never propagates an
exception: a pipeline exception of any kind becomes `success := false`
with `error_message` set to the exception's message, and a success becomes
a successful result — the processor is a total function into BatchResult,
fully characterized by the pipeline outcome. -/
theorem item_processor_never_propagates :
    ∀ (validate : Validator) (enhance : Enhancer) (item : BatchItem),
      process_single_item validate enhance item =
        match item_pipeline validate enhance item with
        | Except.error m =>
            { id := item.id, success := false, error_message := some m }
        | Except.ok (s, t) =>
            { id := item.id, success := true, enhanced_prompt := some s,
              template_used := some t } :=
  fun validate enhance item => process_single_item_spec validate enhance item

/-- C4 counterexample: with the legal configuration `config0` (empty
"general" template content) and the ordinary prompt "hello", the engine
produces a BatchResult with `success = true` but `enhanced_prompt` equal
to the empty string — refuting "success=true iff enhanced_prompt is
non-empty and error_message is empty" at a concrete input. -/
theorem success_with_empty_enhanced_prompt :
    (process_single_item validate_input (enhanced_basic_prompt config0)
        item0).success = true ∧
    (process_single_item validate_input (enhanced_basic_prompt config0)
        item0).enhanced_prompt = some "" := by
  constructor <;> decide

/-- C4 amended: exactly one of {enhanced_prompt, error_message} is set
(non-None), determined by success — `success = true` iff enhanced_prompt
is set and error_message unset, and `success = false` iff error_message is
set and enhanced_prompt unset; the set field carries the enhancer's output
or the exception's message verbatim, which may be the empty string. -/
theorem result_field_exclusivity :
    ∀ (validate : Validator) (enhance : Enhancer) (item : BatchItem),
      ((process_single_item validate enhance item).success = true ↔
        (process_single_item validate enhance item).enhanced_prompt.isSome ∧
        (process_single_item validate enhance item).error_message = none) ∧
      ((process_single_item validate enhance item).success = false ↔
        (process_single_item validate enhance item).error_message.isSome ∧
        (process_single_item validate enhance item).enhanced_prompt = none) := by
  intro validate enhance item
  rw [process_single_item_spec]
  cases item_pipeline validate enhance item with
  | error e => simp
  | ok p => cases p with | mk s t => simp

/-- C2 counterexample: on the queued path, the completion order
`[1, 0]` — a legal behavior of `as_completed`, being a permutation of the
two future indices — produces the result list with ids `["b", "a"]`
against the submitted ids `["a", "b"]`: result[0].id ≠ item[0].id, so the
queued path does not preserve submission order. -/
theorem queued_path_breaks_submission_order :
    ([(⟨1, by decide⟩ : Fin items2.length), ⟨0, by decide⟩].Perm
        (List.finRange items2.length)) ∧
    (process_batch_sync validate_input (enhanced_basic_prompt config0) items2
        [⟨1, by decide⟩, ⟨0, by decide⟩]).map (fun r => r.id) = ["b", "a"] ∧
    items2.map (fun it => it.id) = ["a", "b"] := by
  refine ⟨by decide, ?_, by decide⟩
  decide

/-- C2 amended: both paths return exactly N results for N inputs, one per
item.  The direct path preserves submission order one-to-one
(result ids equal the generated item ids positionally); the queued path
returns the per-item results in completion order — its multiset of ids is
exactly the multiset of item ids, but the order is the scheduler's
completion order rather than submission order. -/
theorem batch_result_order_contract :
    (∀ (validate : Validator) (enhance : Enhancer) (prompts : List String)
        (model : String) (template : Option String),
      (process_batch validate enhance prompts model template).length =
        prompts.length ∧
      (process_batch validate enhance prompts model template).map
          (fun r => r.id) =
        (make_batch_items prompts model template).map (fun it => it.id)) ∧
    (∀ (validate : Validator) (enhance : Enhancer) (items : List BatchItem)
        (order : List (Fin items.length)),
      order.Perm (List.finRange items.length) →
      (process_batch_sync validate enhance items order).length =
        items.length ∧
      ((process_batch_sync validate enhance items order).map
          (fun r => r.id)).Perm (items.map (fun it => it.id))) := by
  constructor
  · intro validate enhance prompts model template
    constructor
    · simp [process_batch, make_batch_items]
    · simp only [process_batch, List.map_map]
      exact List.map_congr_left (fun it _ => process_single_item_id _ _ it)
  · intro validate enhance items order hperm
    constructor
    · simp [process_batch_sync, hperm.length_eq]
    · have h1 : (process_batch_sync validate enhance items order).map
          (fun r => r.id) = order.map (fun i => (items.get i).id) := by
        simp only [process_batch_sync, List.map_map]
        exact List.map_congr_left
          (fun i _ => process_single_item_id _ _ (items.get i))
      rw [h1]
      have h2 := hperm.map (fun i => (items.get i).id)
      have h3 : (List.finRange items.length).map (fun i => (items.get i).id) =
          items.map (fun it => it.id) := by
        have h4 := congrArg (List.map (fun it : BatchItem => it.id))
          (List.finRange_map_get items)
        rw [List.map_map] at h4
        exact h4
      rwa [h3] at h2

/-- C2 amended witness: the queued path at the concrete reversed
completion order returns exactly two results for two items. -/
theorem batch_result_order_contract_witness :
    (process_batch_sync validate_input (enhanced_basic_prompt config0) items2
        [⟨1, by decide⟩, ⟨0, by decide⟩]).length = items2.length :=
  (batch_result_order_contract.2 validate_input (enhanced_basic_prompt config0)
    items2 [⟨1, by decide⟩, ⟨0, by decide⟩] (by decide)).1

/-- Every result is counted once: successes plus failures exhaust a result
list. -/
theorem filter_success_add_filter_fail (l : List BatchResult) :
    (l.filter (fun r => r.success)).length +
      (l.filter (fun r => !r.success)).length = l.length := by
  induction l with
  | nil => rfl
  | cons r rest ih =>
    by_cases h : r.success = true <;>
      simp [List.filter_cons, h, Nat.add_comm, Nat.add_assoc, Nat.add_left_comm, ih]

/-- C5: for every job completing through the queued path (the only path
that builds completed records), the record satisfies
successful + failed = total_items, where total_items is the number of
submitted items, for every legal completion order of the per-item
futures. -/
theorem completed_job_counts_add_up :
    ∀ (validate : Validator) (enhance : Enhancer) (job : BatchJob)
      (order : List (Fin job.items.length)),
      order.Perm (List.finRange job.items.length) →
      (completed_record job
          (process_batch_sync validate enhance job.items order)).successful +
        (completed_record job
          (process_batch_sync validate enhance job.items order)).failed =
        (completed_record job
          (process_batch_sync validate enhance job.items order)).total_items := by
  intro validate enhance job order hperm
  unfold completed_record
  simp only
  rw [filter_success_add_filter_fail]
  simp [process_batch_sync, hperm.length_eq]

/-- C5 witness: a concrete two-item job processed in reversed completion
order satisfies the count equation. -/
theorem completed_job_counts_add_up_witness :
    (completed_record { job_id := "j", items := items2 }
        (process_batch_sync validate_input (enhanced_basic_prompt config0)
          items2 [⟨1, by decide⟩, ⟨0, by decide⟩])).successful +
      (completed_record { job_id := "j", items := items2 }
        (process_batch_sync validate_input (enhanced_basic_prompt config0)
          items2 [⟨1, by decide⟩, ⟨0, by decide⟩])).failed =
      (completed_record { job_id := "j", items := items2 }
        (process_batch_sync validate_input (enhanced_basic_prompt config0)
          items2 [⟨1, by decide⟩, ⟨0, by decide⟩])).total_items :=
  completed_job_counts_add_up validate_input (enhanced_basic_prompt config0)
    { job_id := "j", items := items2 } [⟨1, by decide⟩, ⟨0, by decide⟩]
    (by decide)

/-- C3 counterexample: with `max_concurrent_batches = 1` and two queued
jobs, the interleaving dispatch-dispatch-start-start is reachable — the
guard at src/batch_processor.py line 105 reads `len(self.active_jobs)`
but the insertion happens later on the worker thread (line 122), so both
dequeues see an empty active map and the engine ends with two jobs
simultaneously in the PROCESSING state (present in the active map). -/
theorem processing_can_exceed_max_concurrent_batches :
    Relation.ReflTransGen
      (Step validate_input (enhanced_basic_prompt config0) 1) c3_s0 c3_final ∧
    c3_final.active_jobs.length = 2 ∧ 1 < 2 := by
  refine ⟨?_, by decide, by decide⟩
  have h1 : Step validate_input (enhanced_basic_prompt config0) 1 c3_s0 c3_s1 :=
    Step.dispatch c3_s0 jobA [jobB] rfl (by decide)
  have h2 : Step validate_input (enhanced_basic_prompt config0) 1 c3_s1 c3_s2 :=
    Step.dispatch c3_s1 jobB [] rfl (by decide)
  have h3 : Step validate_input (enhanced_basic_prompt config0) 1 c3_s2 c3_s3 :=
    Step.wrapper_start c3_s2 jobA [] [(jobB, WrapperPhase.submitted)] rfl
  have h4 : Step validate_input (enhanced_basic_prompt config0) 1 c3_s3 c3_final :=
    Step.wrapper_start c3_s3 jobB [(jobA, WrapperPhase.activeInserted)] [] rfl
  exact Relation.ReflTransGen.head h1 (Relation.ReflTransGen.head h2
    (Relation.ReflTransGen.head h3 (Relation.ReflTransGen.head h4
      Relation.ReflTransGen.refl)))

/-- C3 amended: the dispatcher dequeues a job only when the number of
jobs currently in the active map is strictly below
`max_concurrent_batches` — every step that changes the queue satisfies
the guard.  (The bound on simultaneously PROCESSING jobs itself does not
hold: insertion into the active map is asynchronous, see the
counterexample trace.) -/
theorem dispatcher_dequeues_only_below_bound :
    ∀ (V : Validator) (E : Enhancer) (maxConc : Nat) (s s' : EngineState),
      Step V E maxConc s s' → s'.job_queue ≠ s.job_queue →
      s.active_jobs.length < maxConc := by
  intro V E n s s' h hne
  cases h with
  | dispatch job rest hq hlt => exact hlt
  | wrapper_start job l1 l2 hq => exact absurd rfl hne
  | store_ok job l1 l2 order hq hperm => exact absurd rfl hne
  | store_fail job l1 l2 err hq => exact absurd rfl hne
  | send_callback job l1 l2 rec url hq hurl => exact absurd rfl hne
  | finish_ok job l1 l2 rec hq hurl => exact absurd rfl hne
  | finish_notified job l1 l2 rec hq => exact absurd rfl hne
  | finish_fail job l1 l2 hq => exact absurd rfl hne
  | cancel jid =>
    exfalso
    apply hne
    unfold cancel_job
    by_cases hc : (alist_find s.active_jobs jid).isSome <;> simp [hc]

/-- C3 amended witness: the concrete first dispatch of the trace
satisfies the guard 0 < 1. -/
theorem dispatcher_dequeues_only_below_bound_witness :
    c3_s0.active_jobs.length < 1 :=
  dispatcher_dequeues_only_below_bound validate_input
    (enhanced_basic_prompt config0) 1 c3_s0 c3_s1
    (Step.dispatch c3_s0 jobA [jobB] rfl (by decide)) (by decide)

/-- Lookup after erasing the looked-up key fails. -/
theorem alist_find_erase_self {α : Type} (m : List (String × α)) (k : String) :
    alist_find (alist_erase m k) k = none := by
  induction m with
  | nil => rfl
  | cons p rest ih =>
    obtain ⟨k0, v⟩ := p
    by_cases h0 : k0 = k <;> simp [alist_erase, alist_find, h0, ih]

/-- Lookup after erasing a different key is unchanged. -/
theorem alist_find_erase_ne {α : Type} (m : List (String × α)) (k k' : String)
    (h : k' ≠ k) : alist_find (alist_erase m k) k' = alist_find m k' := by
  induction m with
  | nil => rfl
  | cons p rest ih =>
    obtain ⟨k0, v⟩ := p
    by_cases h0 : k0 = k
    · subst h0
      have h1 : k0 ≠ k' := fun hh => h hh.symm
      simp [alist_erase, alist_find, h1, ih]
    · simp [alist_erase, alist_find, h0, ih]

/-- Lookup of the freshly inserted key. -/
theorem alist_find_insert_self {α : Type} (m : List (String × α)) (k : String)
    (v : α) : alist_find (alist_insert m k v) k = some v := by
  simp [alist_insert, alist_find]

/-- Lookup of another key is unchanged by insertion. -/
theorem alist_find_insert_ne {α : Type} (m : List (String × α)) (k k' : String)
    (v : α) (h : k' ≠ k) :
    alist_find (alist_insert m k v) k' = alist_find m k' := by
  have h1 : k ≠ k' := fun hh => h hh.symm
  simp only [alist_insert, alist_find, if_neg h1]
  exact alist_find_erase_ne m k k' h

/-- Insertion never destroys the presence of a binding. -/
theorem alist_find_insert_isSome {α : Type} (m : List (String × α))
    (k k' : String) (v : α) (h : (alist_find m k').isSome) :
    (alist_find (alist_insert m k v) k').isSome := by
  by_cases h0 : k' = k
  · subst h0
    rw [alist_find_insert_self]
    rfl
  · rw [alist_find_insert_ne m k k' v h0]
    exact h

/-- The ids of a wrapper list are independent of the middle entry's phase. -/
theorem inflight_ids_mid (l1 l2 : List (BatchJob × WrapperPhase))
    (job : BatchJob) (ph : WrapperPhase) :
    inflight_ids (l1 ++ (job, ph) :: l2) =
      inflight_ids l1 ++ job.job_id :: inflight_ids l2 := by
  simp [inflight_ids]

/-- Unpacks membership in a list with a distinguished middle element. -/
theorem mem_of_mem_mid {α : Type} {l1 l2 : List α} {x y : α}
    (h : y ∈ l1 ++ x :: l2) : y ∈ l1 ∨ y = x ∨ y ∈ l2 := by
  simp only [List.mem_append, List.mem_cons] at h
  tauto

/-- The middle element belongs to the list. -/
theorem mem_mid_self {α : Type} {l1 l2 : List α} {x : α} :
    x ∈ l1 ++ x :: l2 :=
  List.mem_append.mpr (Or.inr (List.mem_cons_self _ _))

/-- Packs membership on the left of a distinguished middle element. -/
theorem mem_mid_of_left {α : Type} {l1 l2 : List α} {x y : α}
    (h : y ∈ l1) : y ∈ l1 ++ x :: l2 :=
  List.mem_append.mpr (Or.inl h)

/-- Packs membership on the right of a distinguished middle element. -/
theorem mem_mid_of_right {α : Type} {l1 l2 : List α} {x y : α}
    (h : y ∈ l2) : y ∈ l1 ++ x :: l2 :=
  List.mem_append.mpr (Or.inr (List.mem_cons_of_mem _ h))

/-- With distinct in-flight ids, any wrapper in the flanks of a middle
entry carries a different job id. -/
theorem mid_ne_of_nodup (l1 l2 : List (BatchJob × WrapperPhase))
    (job job' : BatchJob) (ph ph' : WrapperPhase)
    (hnd : (inflight_ids (l1 ++ (job, ph) :: l2)).Nodup)
    (hmem : (job', ph') ∈ l1 ∨ (job', ph') ∈ l2) :
    job'.job_id ≠ job.job_id := by
  rw [inflight_ids_mid] at hnd
  have hmid := List.nodup_middle.mp hnd
  have hnotin : job.job_id ∉ inflight_ids l1 ++ inflight_ids l2 :=
    (List.nodup_cons.mp hmid).1
  intro heq
  apply hnotin
  rw [← heq]
  cases hmem with
  | inl h =>
    exact List.mem_append.mpr (Or.inl (List.mem_map_of_mem _ h))
  | inr h =>
    exact List.mem_append.mpr (Or.inr (List.mem_map_of_mem _ h))

/-- The engine invariant is preserved by every atomic step. -/
theorem wf_step (V : Validator) (E : Enhancer) (maxConc : Nat)
    (s s' : EngineState) (hwf : WF s) (hstep : Step V E maxConc s s') :
    WF s' := by
  obtain ⟨hnd, hact, hcomp⟩ := hwf
  cases hstep with
  | dispatch job rest hq hlt =>
    refine ⟨?_, ?_, ?_⟩
    · rw [hq] at hnd
      have hperm :
          (queue_ids rest ++ inflight_ids (s.inflight ++ [(job, WrapperPhase.submitted)])).Perm
            (queue_ids (job :: rest) ++ inflight_ids s.inflight) := by
        simp only [inflight_ids, queue_ids, List.map_append, List.map_cons,
          List.map_nil, List.cons_append]
        rw [← List.append_assoc]
        exact List.perm_append_singleton _ _
      exact hperm.nodup_iff.mpr hnd
    · intro job' hmem hnc
      rcases List.mem_append.mp hmem with h1 | h2
      · exact hact job' h1 hnc
      · exact absurd (congrArg Prod.snd (List.mem_singleton.mp h2)) (by simp)
    · intro job' ph hmem hst
      rcases List.mem_append.mp hmem with h1 | h2
      · exact hcomp job' ph h1 hst
      · have hp : ph = WrapperPhase.submitted :=
          congrArg Prod.snd (List.mem_singleton.mp h2)
        rw [hp] at hst
        cases hst
  | wrapper_start job l1 l2 hq =>
    rw [hq] at hnd
    refine ⟨?_, ?_, ?_⟩
    · rw [inflight_ids_mid] at hnd ⊢
      exact hnd
    · intro job' hmem hnc
      rcases mem_of_mem_mid hmem with h1 | h2 | h3
      · have hne : job'.job_id ≠ job.job_id :=
          mid_ne_of_nodup l1 l2 job job' WrapperPhase.submitted
            WrapperPhase.activeInserted (hnd.of_append_right) (Or.inl h1)
        rw [alist_find_insert_ne _ _ _ _ hne]
        exact hact job' (hq ▸ mem_mid_of_left h1) hnc
      · have : job' = job := congrArg Prod.fst h2
        rw [this]
        exact alist_find_insert_self _ _ _
      · have hne : job'.job_id ≠ job.job_id :=
          mid_ne_of_nodup l1 l2 job job' WrapperPhase.submitted
            WrapperPhase.activeInserted (hnd.of_append_right) (Or.inr h3)
        rw [alist_find_insert_ne _ _ _ _ hne]
        exact hact job' (hq ▸ mem_mid_of_right h3) hnc
    · intro job' ph hmem hst
      rcases mem_of_mem_mid hmem with h1 | h2 | h3
      · exact hcomp job' ph (hq ▸ mem_mid_of_left h1) hst
      · have : ph = WrapperPhase.activeInserted := congrArg Prod.snd h2
        rw [this] at hst
        cases hst
      · exact hcomp job' ph (hq ▸ mem_mid_of_right h3) hst
  | store_ok job l1 l2 order hq hperm =>
    rw [hq] at hnd
    refine ⟨?_, ?_, ?_⟩
    · rw [inflight_ids_mid] at hnd ⊢
      exact hnd
    · intro job' hmem hnc
      rcases mem_of_mem_mid hmem with h1 | h2 | h3
      · exact hact job' (hq ▸ mem_mid_of_left h1) hnc
      · exact absurd (congrArg Prod.snd h2) (by simp)
      · exact hact job' (hq ▸ mem_mid_of_right h3) hnc
    · intro job' ph hmem hst
      rcases mem_of_mem_mid hmem with h1 | h2 | h3
      · exact alist_find_insert_isSome _ _ _ _
          (hcomp job' ph (hq ▸ mem_mid_of_left h1) hst)
      · have : job' = job := congrArg Prod.fst h2
        rw [this, alist_find_insert_self]
        rfl
      · exact alist_find_insert_isSome _ _ _ _
          (hcomp job' ph (hq ▸ mem_mid_of_right h3) hst)
  | store_fail job l1 l2 err hq =>
    rw [hq] at hnd
    refine ⟨?_, ?_, ?_⟩
    · rw [inflight_ids_mid] at hnd ⊢
      exact hnd
    · intro job' hmem hnc
      rcases mem_of_mem_mid hmem with h1 | h2 | h3
      · exact hact job' (hq ▸ mem_mid_of_left h1) hnc
      · exact absurd (congrArg Prod.snd h2) (by simp)
      · exact hact job' (hq ▸ mem_mid_of_right h3) hnc
    · intro job' ph hmem hst
      rcases mem_of_mem_mid hmem with h1 | h2 | h3
      · exact alist_find_insert_isSome _ _ _ _
          (hcomp job' ph (hq ▸ mem_mid_of_left h1) hst)
      · have : job' = job := congrArg Prod.fst h2
        rw [this, alist_find_insert_self]
        rfl
      · exact alist_find_insert_isSome _ _ _ _
          (hcomp job' ph (hq ▸ mem_mid_of_right h3) hst)
  | send_callback job l1 l2 rec url hq hurl =>
    rw [hq] at hnd
    refine ⟨?_, ?_, ?_⟩
    · rw [inflight_ids_mid] at hnd ⊢
      exact hnd
    · intro job' hmem hnc
      rcases mem_of_mem_mid hmem with h1 | h2 | h3
      · exact hact job' (hq ▸ mem_mid_of_left h1) hnc
      · exact absurd (congrArg Prod.snd h2) (by simp)
      · exact hact job' (hq ▸ mem_mid_of_right h3) hnc
    · intro job' ph hmem hst
      rcases mem_of_mem_mid hmem with h1 | h2 | h3
      · exact hcomp job' ph (hq ▸ mem_mid_of_left h1) hst
      · have hj : job' = job := congrArg Prod.fst h2
        rw [hj]
        exact hcomp job (WrapperPhase.storedOk rec) (hq ▸ mem_mid_self) rfl
      · exact hcomp job' ph (hq ▸ mem_mid_of_right h3) hst
  | finish_ok job l1 l2 rec hq hurl =>
    rw [hq] at hnd
    refine ⟨?_, ?_, ?_⟩
    · refine List.Nodup.sublist ?_ hnd
      refine List.Sublist.append_left ?_ _
      rw [inflight_ids_mid]
      simp only [inflight_ids, List.map_append]
      exact List.Sublist.append_left (List.sublist_cons_self _ _) _
    · intro job' hmem hnc
      have hsplit := List.mem_append.mp hmem
      have hne : job'.job_id ≠ job.job_id :=
        mid_ne_of_nodup l1 l2 job job' (WrapperPhase.storedOk rec)
          WrapperPhase.activeInserted hnd.of_append_right hsplit
      rw [alist_find_erase_ne _ _ _ hne]
      cases hsplit with
      | inl h1 => exact hact job' (hq ▸ mem_mid_of_left h1) hnc
      | inr h3 => exact hact job' (hq ▸ mem_mid_of_right h3) hnc
    · intro job' ph hmem hst
      cases List.mem_append.mp hmem with
      | inl h1 => exact hcomp job' ph (hq ▸ mem_mid_of_left h1) hst
      | inr h3 => exact hcomp job' ph (hq ▸ mem_mid_of_right h3) hst
  | finish_notified job l1 l2 rec hq =>
    rw [hq] at hnd
    refine ⟨?_, ?_, ?_⟩
    · refine List.Nodup.sublist ?_ hnd
      refine List.Sublist.append_left ?_ _
      rw [inflight_ids_mid]
      simp only [inflight_ids, List.map_append]
      exact List.Sublist.append_left (List.sublist_cons_self _ _) _
    · intro job' hmem hnc
      have hsplit := List.mem_append.mp hmem
      have hne : job'.job_id ≠ job.job_id :=
        mid_ne_of_nodup l1 l2 job job' (WrapperPhase.notified rec)
          WrapperPhase.activeInserted hnd.of_append_right hsplit
      rw [alist_find_erase_ne _ _ _ hne]
      cases hsplit with
      | inl h1 => exact hact job' (hq ▸ mem_mid_of_left h1) hnc
      | inr h3 => exact hact job' (hq ▸ mem_mid_of_right h3) hnc
    · intro job' ph hmem hst
      cases List.mem_append.mp hmem with
      | inl h1 => exact hcomp job' ph (hq ▸ mem_mid_of_left h1) hst
      | inr h3 => exact hcomp job' ph (hq ▸ mem_mid_of_right h3) hst
  | finish_fail job l1 l2 hq =>
    rw [hq] at hnd
    refine ⟨?_, ?_, ?_⟩
    · refine List.Nodup.sublist ?_ hnd
      refine List.Sublist.append_left ?_ _
      rw [inflight_ids_mid]
      simp only [inflight_ids, List.map_append]
      exact List.Sublist.append_left (List.sublist_cons_self _ _) _
    · intro job' hmem hnc
      have hsplit := List.mem_append.mp hmem
      have hne : job'.job_id ≠ job.job_id :=
        mid_ne_of_nodup l1 l2 job job' WrapperPhase.storedFail
          WrapperPhase.activeInserted hnd.of_append_right hsplit
      rw [alist_find_erase_ne _ _ _ hne]
      cases hsplit with
      | inl h1 => exact hact job' (hq ▸ mem_mid_of_left h1) hnc
      | inr h3 => exact hact job' (hq ▸ mem_mid_of_right h3) hnc
    · intro job' ph hmem hst
      cases List.mem_append.mp hmem with
      | inl h1 => exact hcomp job' ph (hq ▸ mem_mid_of_left h1) hst
      | inr h3 => exact hcomp job' ph (hq ▸ mem_mid_of_right h3) hst
  | cancel jid =>
    unfold cancel_job
    split
    · refine ⟨hnd, ?_, ?_⟩
      · intro job' hmem hnc
        have hne : job'.job_id ≠ jid := by
          intro heq
          exact hnc (heq ▸ List.mem_cons_self _ _)
        have hnc' : job'.job_id ∉ s.cancelled := by
          intro hin
          exact hnc (List.mem_cons_of_mem _ hin)
        rw [alist_find_erase_ne _ _ _ hne]
        exact hact job' hmem hnc'
      · intro job' ph hmem hst
        exact hcomp job' ph hmem hst
    · exact ⟨hnd, hact, hcomp⟩

/-- C6 counterexample: a single dispatch step from the initial two-job
state is reachable, after which `jobA` has been dispatched (its wrapper
submitted), is not cancelled and not evicted — yet it is absent from both
the active map and the completed map, because the dispatcher inserts
nothing (insertion happens later, at the wrapper's first statement,
src/batch_processor.py line 122).  During this window `get_job_status`
falls through to the catch-all queued placeholder. -/
theorem dispatched_job_in_neither_map :
    Relation.ReflTransGen
      (Step validate_input (enhanced_basic_prompt config0) 1) c3_s0 c3_s1 ∧
    (jobA, WrapperPhase.submitted) ∈ c3_s1.inflight ∧
    c3_s1.cancelled = [] ∧
    alist_find c3_s1.active_jobs jobA.job_id = none ∧
    alist_find c3_s1.completed_jobs jobA.job_id = none := by
  refine ⟨Relation.ReflTransGen.single
    (Step.dispatch c3_s0 jobA [jobB] rfl (by decide)), by decide, rfl, rfl, rfl⟩

/-- C6 amended: once the wrapper has inserted the job into the active map,
the job is in the active map or the completed map at every reachable
instant until its eviction, unless it was cancelled — the invariant is
preserved by every atomic step, and in particular the completed-map
insertion (line 126 or 141) precedes the active-map removal (line 149) on
both the normal and the failure path, so the active-to-completed handoff
itself has no gap.  Only the window between dequeue and wrapper start
(the counterexample) and cancelled jobs fall outside. -/
theorem registry_transition_no_gap :
    (∀ (V : Validator) (E : Enhancer) (maxConc : Nat) (s s' : EngineState),
      WF s → Step V E maxConc s s' → WF s') ∧
    (∀ s : EngineState, WF s →
      (∀ job : BatchJob,
        (job, WrapperPhase.activeInserted) ∈ s.inflight →
        job.job_id ∉ s.cancelled →
        ((alist_find s.active_jobs job.job_id).isSome ∨
          (alist_find s.completed_jobs job.job_id).isSome)) ∧
      (∀ (job : BatchJob) (ph : WrapperPhase),
        (job, ph) ∈ s.inflight → phase_stored ph = true →
        ((alist_find s.active_jobs job.job_id).isSome ∨
          (alist_find s.completed_jobs job.job_id).isSome))) := by
  refine ⟨fun V E n s s' hwf hstep => wf_step V E n s s' hwf hstep,
    fun s hwf => ⟨?_, ?_⟩⟩
  · intro job hmem hnc
    left
    rw [hwf.active_of_running job hmem hnc]
    rfl
  · intro job ph hmem hst
    right
    exact hwf.completed_of_stored job ph hmem hst

/-- The concrete mid-run state satisfies the engine invariant. -/
theorem wf_s_run : WF s_run := by
  refine ⟨by decide, ?_, ?_⟩
  · intro job hmem hnc
    have hj : job = jobA := by
      have := List.mem_singleton.mp hmem
      exact congrArg Prod.fst this
    rw [hj]
    rfl
  · intro job ph hmem hst
    have hp : ph = WrapperPhase.activeInserted :=
      congrArg Prod.snd (List.mem_singleton.mp hmem)
    rw [hp] at hst
    cases hst

/-- C6 amended witness: in the concrete mid-run state the uncancelled
running job is in one of the two maps. -/
theorem registry_transition_no_gap_witness :
    (alist_find s_run.active_jobs jobA.job_id).isSome ∨
    (alist_find s_run.completed_jobs jobA.job_id).isSome :=
  (registry_transition_no_gap.2 s_run wf_s_run).1 jobA (by decide) (by decide)

/-- C7 counterexample: in the concrete mid-run state, `cancel_job "j1"`
returns true, yet the subsequent `get_job_status "j1"` reports the generic
`queued` placeholder — not a not-found: `get_job_status`
(src/batch_processor.py lines 310-336) has no not-found branch at all, its
only possible reports being completed, processing and queued. -/
theorem cancel_then_status_reports_queued :
    (cancel_job s_run "j1").1 = true ∧
    get_job_status (cancel_job s_run "j1").2 "j1" = JobStatusKind.queued := by
  constructor <;> rfl

/-- C7 amended: `cancel_job` returns true iff the id is in the active map
at the time of the call; when it returns true the job is removed from the
active map (the completed map and the queue are untouched), so subsequent
status queries never report it processing — they report completed if a
completed record exists and otherwise fall back to the generic queued
placeholder (the code has no not-found status); when it returns false the
entire state is unchanged, in particular any completed record. -/
theorem cancel_job_contract :
    ∀ (s : EngineState) (jid : String),
      ((cancel_job s jid).1 = true ↔ (alist_find s.active_jobs jid).isSome) ∧
      ((cancel_job s jid).1 = true →
        alist_find (cancel_job s jid).2.active_jobs jid = none ∧
        (cancel_job s jid).2.completed_jobs = s.completed_jobs ∧
        (cancel_job s jid).2.job_queue = s.job_queue ∧
        get_job_status (cancel_job s jid).2 jid ≠ JobStatusKind.processing) ∧
      ((cancel_job s jid).1 = false → (cancel_job s jid).2 = s) := by
  intro s jid
  by_cases hc : (alist_find s.active_jobs jid).isSome
  · refine ⟨by simp [cancel_job, hc], ?_, by simp [cancel_job, hc]⟩
    intro _
    refine ⟨?_, by simp [cancel_job, hc], by simp [cancel_job, hc], ?_⟩
    · simp only [cancel_job, hc, if_pos]
      exact alist_find_erase_self s.active_jobs jid
    · simp only [cancel_job, hc, if_pos, get_job_status]
      by_cases hcomp : (alist_find s.completed_jobs jid).isSome
      · simp [hcomp]
      · simp [hcomp, alist_find_erase_self]
  · refine ⟨by simp [cancel_job, hc], ?_, by simp [cancel_job, hc]⟩
    intro habs
    exfalso
    rw [show (cancel_job s jid).1 = false by simp [cancel_job, hc]] at habs
    cases habs

/-- C7 amended witness: cancelling the running job of the concrete
mid-run state removes it from the active map. -/
theorem cancel_job_contract_witness :
    alist_find (cancel_job s_run "j1").2.active_jobs "j1" = none :=
  ((cancel_job_contract s_run "j1").2.1 (by rfl)).1

/-- Cancellation never touches the in-flight wrapper list: the thread
running `job_wrapper` is not interrupted (src/batch_processor.py lines
342-344). -/
theorem cancel_preserves_inflight (s : EngineState) (jid : String) :
    (cancel_job s jid).2.inflight = s.inflight := by
  by_cases hc : (alist_find s.active_jobs jid).isSome <;> simp [cancel_job, hc]

/-- C10: if `cancel_job` succeeds while the job's wrapper is mid-run
(phase activeInserted), the wrapper nevertheless continues: there is a
continuation of the execution after the cancellation in which the
completed record is stored — so `get_job_status` reports completed with
the full results — and, when a callback url is set, the callback is
delivered.  `job_wrapper` (src/batch_processor.py lines 120-149) never
consults cancellation state, so no step of the model is disabled by a
cancel. -/
theorem cancelled_job_still_completes :
    ∀ (V : Validator) (E : Enhancer) (maxConc : Nat) (s : EngineState)
      (job : BatchJob) (l1 l2 : List (BatchJob × WrapperPhase)),
      s.inflight = l1 ++ (job, WrapperPhase.activeInserted) :: l2 →
      (cancel_job s job.job_id).1 = true →
      ∃ (s' : EngineState) (rec : CompletedRecord),
        Relation.ReflTransGen (Step V E maxConc) (cancel_job s job.job_id).2 s' ∧
        alist_find s'.completed_jobs job.job_id =
          some (CompletedEntry.completed rec) ∧
        get_job_status s' job.job_id = JobStatusKind.completed ∧
        (∀ url : String, job.callback_url = some url →
          (url, rec) ∈ s'.callbacks_sent) := by
  intro V E n s job l1 l2 hq hcancel
  set s1 := (cancel_job s job.job_id).2 with hs1
  have hq1 : s1.inflight = l1 ++ (job, WrapperPhase.activeInserted) :: l2 := by
    rw [hs1, cancel_preserves_inflight]
    exact hq
  set rec := completed_record job
    (process_batch_sync V E job.items (List.finRange job.items.length)) with hrec
  have hstep1 : Step V E n s1
      { s1 with
        inflight := l1 ++ (job, WrapperPhase.storedOk rec) :: l2,
        completed_jobs := alist_insert s1.completed_jobs job.job_id
          (CompletedEntry.completed rec) } :=
    Step.store_ok s1 job l1 l2 (List.finRange job.items.length) hq1
      (List.Perm.refl _)
  set s2 : EngineState :=
    { s1 with
      inflight := l1 ++ (job, WrapperPhase.storedOk rec) :: l2,
      completed_jobs := alist_insert s1.completed_jobs job.job_id
        (CompletedEntry.completed rec) } with hs2
  have hfind2 : alist_find s2.completed_jobs job.job_id =
      some (CompletedEntry.completed rec) :=
    alist_find_insert_self _ _ _
  have hstatus2 : get_job_status s2 job.job_id = JobStatusKind.completed := by
    unfold get_job_status
    rw [hfind2]
    rfl
  cases hurl : job.callback_url with
  | none =>
    refine ⟨s2, rec, Relation.ReflTransGen.single hstep1, hfind2, hstatus2, ?_⟩
    intro url habs
    exact Option.noConfusion habs
  | some url =>
    have hstep2 : Step V E n s2
        { s2 with
          inflight := l1 ++ (job, WrapperPhase.notified rec) :: l2,
          callbacks_sent := s2.callbacks_sent ++ [(url, rec)] } :=
      Step.send_callback s2 job l1 l2 rec url rfl hurl
    refine ⟨{ s2 with
        inflight := l1 ++ (job, WrapperPhase.notified rec) :: l2,
        callbacks_sent := s2.callbacks_sent ++ [(url, rec)] }, rec,
      Relation.ReflTransGen.head hstep1
        (Relation.ReflTransGen.single hstep2), hfind2, hstatus2, ?_⟩
    intro url' hurl'
    have huu : url = url' := Option.some_inj.mp hurl'
    rw [← huu]
    exact List.mem_append.mpr (Or.inr (List.mem_singleton.mpr rfl))

/-- C10 witness: cancelling the running job of the concrete mid-run state
still leads to a completed record being stored. -/
theorem cancelled_job_still_completes_witness :
    ∃ (s' : EngineState) (rec : CompletedRecord),
      Relation.ReflTransGen
        (Step validate_input (enhanced_basic_prompt config0) 1)
        (cancel_job s_run "j1").2 s' ∧
      alist_find s'.completed_jobs jobA.job_id =
        some (CompletedEntry.completed rec) ∧
      get_job_status s' jobA.job_id = JobStatusKind.completed ∧
      (∀ url : String, jobA.callback_url = some url →
        (url, rec) ∈ s'.callbacks_sent) :=
  cancelled_job_still_completes validate_input (enhanced_basic_prompt config0)
    1 s_run jobA [] [] rfl rfl

/-- C8: in script context the cleanup keeps exactly the completed entries
whose `completed_at` is not older than the cutoff `now - max_age_hours`
(the eviction comparison at line 374 is strict), characterized by
membership; but in the imported-module context — how the repository's own
test drives the processor — the call fails with a NameError before
touching anything, so nothing is ever evicted there. -/
theorem cleanup_retention_characterization :
    (∀ (now max_age_hours : Int) (completed : List (String × Int))
        (res : List (String × Int)),
      cleanup_old_jobs true now max_age_hours completed = Except.ok res →
      ∀ (jid : String) (t : Int),
        ((jid, t) ∈ res ↔
          (jid, t) ∈ completed ∧ ¬ (t < now - max_age_hours * 3600))) ∧
    cleanup_old_jobs false 7200 1 [("old", 0)] =
      Except.error "NameError: name 'timedelta' is not defined" := by
  constructor
  · intro now h completed res hok jid t
    have hres : res = completed.filter
        (fun p => ¬ (p.2 < now - h * 3600)) := by
      have := hok
      unfold cleanup_old_jobs at this
      rw [if_pos rfl] at this
      exact (Except.ok.injEq _ _).mp this |>.symm
    rw [hres]
    simp [List.mem_filter]
  · rfl

/-- C8 witness: a two-entry completed map at time 7200 with a one-hour
window keeps exactly the entry completed at time 3700. -/
theorem cleanup_retention_characterization_witness :
    ("keep", (3700 : Int)) ∈ [(("keep" : String), (3700 : Int))] ↔
      ("keep", (3700 : Int)) ∈
          [(("old" : String), (0 : Int)), ("keep", 3700)] ∧
        ¬ ((3700 : Int) < 7200 - 1 * 3600) :=
  cleanup_retention_characterization.1 7200 1
    [("old", 0), ("keep", 3700)] [("keep", 3700)] rfl "keep" 3700

/-- C9: in script context, constructing without an explicit `max_workers`
yields `min(32, cores + 4)` for any positive reported core count and
`min(32, 1 + 4)` when hardware parallelism is unreported (the
`or 1` fallback); but in the imported-module context — how the
repository's own test constructs `BatchProcessor(config)` — the same
construction fails with a NameError because `os` is only imported in the
`__main__` block. -/
theorem default_workers_formula_and_import_bug :
    (∀ n : Nat, 0 < n →
      init_max_workers true (some n) none = Except.ok (min 32 (n + 4))) ∧
    init_max_workers true none none = Except.ok (min 32 (1 + 4)) ∧
    init_max_workers false none none =
      Except.error "NameError: name 'os' is not defined" := by
  refine ⟨?_, rfl, rfl⟩
  intro n hn
  have hn0 : n ≠ 0 := Nat.pos_iff_ne_zero.mp hn
  simp [init_max_workers, default_max_workers, py_or_nat, hn0]

/-- C9 witness: with eight reported cores the default worker count is
`min 32 12 = 12`. -/
theorem default_workers_formula_and_import_bug_witness :
    init_max_workers true (some 8) none = Except.ok (min 32 (8 + 4)) :=
  default_workers_formula_and_import_bug.1 8 (by decide)

end PromptKraft
